import Mathlib

/-
Verification of the OWASP-Web request security pipeline.

This file gives a shallow embedding, in Lean 4, of the security-relevant
parts of the OWASP-Web backend:

  * the suspicious-path threat filter and the `threatDetection` middleware
    (backend/middleware/security.js),
  * the rate limiters and the slow-down (speed) limiter configured there,
  * the CSRF token service (backend/middleware/csrf.js), and
  * the middleware pipeline mounted in backend/server.js.

JavaScript strings are embedded as Lean `String` / `List Char`; the handful
of JS string operations used by the source (`includes`, `toLowerCase`,
`split`, `parseInt`, template concatenation) are reimplemented below with
their JS semantics on the inputs that occur.  `Date.now()` and
`crypto.randomBytes` are made explicit parameters (a clock value and a
nonce string).  The external HMAC-SHA256 primitive is replaced by a
concrete injective stand-in; only its determinism and the non-emptiness of
its digests are used by any proof.  Fixed-window request counting is the
semantics of the external express-rate-limit / express-slow-down packages;
those two algorithms are modelled from the spec (marked in their doc
comments), while every constant and option fed to them is taken from the
source configuration.
-/

/-! ### JS string primitives -/

/-- JS `String.prototype.split(sep)` with a one-character separator,
on the character list of the string.  `"a:b".split(":") = ["a","b"]`,
`"".split(":") = [""]`. -/
def splitOnChar (c : Char) : List Char → List (List Char)
  | [] => [[]]
  | x :: xs =>
    match splitOnChar c xs with
    | [] => [[]]
    | w :: ws => if x = c then [] :: w :: ws else (x :: w) :: ws

/-- Whether the first list is a leading segment of the second. -/
def charsPrefixOf : List Char → List Char → Bool
  | [], _ => true
  | _ :: _, [] => false
  | x :: xs, y :: ys => x = y && charsPrefixOf xs ys

/-- Whether `needle` occurs contiguously inside the second list. -/
def charsInfixOf (needle : List Char) : List Char → Bool
  | [] => charsPrefixOf needle []
  | y :: ys => charsPrefixOf needle (y :: ys) || charsInfixOf needle ys

/-- JS `hay.includes(needle)`. -/
def strContains (hay needle : String) : Bool :=
  charsInfixOf needle.data hay.data

/-- JS `url.startsWith(p)`. -/
def strStartsWith (s p : String) : Bool :=
  charsPrefixOf p.data s.data

/-- ASCII lower-casing of one character; agrees with JS `toLowerCase`
on the ASCII request paths this application compares. -/
def asciiLower (c : Char) : Char :=
  if 'A' ≤ c ∧ c ≤ 'Z' then Char.ofNat (c.toNat + 32) else c

/-- JS `s.toLowerCase()` (ASCII fragment). -/
def strToLower (s : String) : String :=
  ⟨s.data.map asciiLower⟩

/-! ### Threat filter (security.js, `isSuspiciousPath` / `threatDetection`) -/

/-- The threat signature set of `isSuspiciousPath` in
backend/middleware/security.js, verbatim. -/
def suspiciousPaths : List String :=
  [".env", ".htaccess", "config", ".git", ".svn", "cvs", "backup",
   "admin", "administrator", "wp-admin", "phpmyadmin", "adminer",
   "phpinfo", "server-status", "server-info", "trace.axd", "elmah",
   ".ssh/", "id_rsa", "id_dsa", ".key", ".pem", "privatekey",
   "database.yml", "databases.yml", "wp-config", "configuration.php",
   "filezilla", "winscp", "sftp-config", "composer.", "package.json",
   "actuator/", "health", "metrics", "dump", "debug", "test.php"]

/-- Source `isSuspiciousPath(path)`: case-insensitive substring match of the path
against the signature set. -/
def isSuspiciousPath (path : String) : Bool :=
  suspiciousPaths.any fun s => strContains (strToLower path) s

/-! ### Rate limiting (security.js, `createRateLimit` and its instances) -/

/-- One per-(client, limiter-class) fixed-window record:
window-start timestamp and request count.  Times are milliseconds. -/
structure RateState where
  windowStart : Nat
  count : Nat
deriving DecidableEq, Repr

/-- Outcome of one rate-limit check. -/
inductive RateDecision where
  | allow : RateDecision
  | reject (retryAfter : Nat) : RateDecision
deriving DecidableEq, Repr

/-- Modelled from the spec: the fixed-window refresh of express-rate-limit
and express-slow-down (the packages are external to the repository).
A record older than its window is reset to empty before being read;
a missing record is created fresh at the current time (spec section 3,
"Rate Window Record"). -/
def rateWindowRefresh (windowMs : Nat) (st : Option RateState) (now : Nat) : RateState :=
  match st with
  | none => ⟨now, 0⟩
  | some r => if windowMs ≤ now - r.windowStart then ⟨now, 0⟩ else r

/-- Modelled from the spec: express-rate-limit admission
(increment-then-compare against the class maximum, spec section 4.1);
`maxReqs`, `windowMs` and the 429 handler are the source configuration of
`createRateLimit`.  On rejection the retry-after value is the remaining
window, as exposed by the standard rate-limit headers. -/
def rateAdmit (windowMs maxReqs : Nat) (st : Option RateState) (now : Nat) :
    RateDecision × RateState :=
  match rateWindowRefresh windowMs st now with
  | ⟨ws, cnt⟩ =>
    if maxReqs < cnt + 1 then (.reject (ws + windowMs - now), ⟨ws, cnt + 1⟩)
    else (.allow, ⟨ws, cnt + 1⟩)

/-- The `skipPaths` passed to the general limiter in security.js. -/
def generalSkipPaths : List String :=
  ["/assets/", ".css", ".js", ".png", ".jpg", ".jpeg", ".gif", ".ico",
   ".svg", ".woff", ".woff2", ".ttf", ".eot"]

/-- The `skip` option of `createRateLimit`: lowercase the request URL and
test each skip path with `includes`.  Only `generalLimiter` passes a
non-empty skip list. -/
def generalSkip (url : String) : Bool :=
  generalSkipPaths.any fun p => strContains (strToLower url) p

/-! ### Slow-down (security.js, `speedLimiter`) -/

/-- Option `delayAfter` of the `speedLimiter` configuration. -/
def slowDownDelayAfter : Nat := 2

/-- Option `delayMs` of the `speedLimiter` configuration. -/
def slowDownDelayMsPer : Nat := 500

/-- Option `maxDelayMs` of the `speedLimiter` configuration. -/
def slowDownMaxDelayMs : Nat := 20000

/-- Modelled from the spec: the delay express-slow-down applies to the
`used`-th request of a window (the package is external to the repository):
no delay up to `delayAfter` requests, then `delayMs` per further request,
clamped to `maxDelayMs` (spec section 4.1, "Speed check").  The three
constants are the source configuration of `speedLimiter`. -/
def slowDownDelay (used : Nat) : Nat :=
  if slowDownDelayAfter < used then
    min ((used - slowDownDelayAfter) * slowDownDelayMsPer) slowDownMaxDelayMs
  else 0

/-- Advance the speed-limiter window record for one more request
(same fixed-window refresh, 15-minute window from the source config). -/
def speedAdvance (st : Option RateState) (now : Nat) : RateState :=
  let r := rateWindowRefresh 900000 st now
  ⟨r.windowStart, r.count + 1⟩

/-! ### CSRF token service (csrf.js) -/

/-- The server secret (`options.secret`); its concrete value is irrelevant
to every theorem below. -/
def csrfSecret : String := "your-csrf-secret-key-change-in-production"

/-- Constant `maxAge` of `verifyToken`: 24 hours in milliseconds. -/
def csrfMaxAge : Nat := 24 * 60 * 60 * 1000

/-- Stand-in for the external `crypto.createHmac("sha256", key)` digest.
It is a concrete injective function of (key, message); the proofs below
use only that it is a function and that its output is never the empty
string (a real hex digest has 64 characters). -/
def hmacSHA256 (key msg : String) : String :=
  ⟨'#' :: key.data ++ '|' :: msg.data⟩

/-- The decimal digit character for `d < 10`. -/
def decDigit (d : Nat) : Char := Char.ofNat (48 + d)

/-- Fuel-driven decimal rendering (most significant digit first). -/
def natToDecAux : Nat → Nat → List Char
  | 0, _ => []
  | fuel + 1, n =>
    if n < 10 then [decDigit n]
    else natToDecAux fuel (n / 10) ++ [decDigit (n % 10)]

/-- JS `Date.now().toString()`: decimal rendering of a natural number. -/
def natToDec (n : Nat) : List Char := natToDecAux (n + 1) n

/-- Accumulate decimal digits into a number. -/
def parseDecDigits (l : List Char) : Nat :=
  l.foldl (fun a c => a * 10 + (c.toNat - 48)) 0

/-- JS `parseInt` on the strings occurring here: read the maximal leading
run of decimal digits; `none` models `NaN` (and every comparison with
`NaN` is false, which the caller encodes). -/
def parseIntJS (l : List Char) : Option Nat :=
  match l.takeWhile fun c => c.isDigit with
  | [] => none
  | ds => some (parseDecDigits ds)

/-- A CSRF token after the transport decoding of `verifyToken`: the token
string is `base64(payload) ++ "." ++ signature`; base64 output never
contains `.` and decoding inverts encoding, so the split on `.` and the
decode recover exactly these two components.  A token string with no `.`
arrives as an empty component and is covered by the emptiness checks. -/
structure CSRFToken where
  payload : String
  signature : String
deriving DecidableEq, Repr

/-- Source `generateToken(sessionId)` with `Date.now()` and the random hex string
made explicit: payload is `sessionId:timestamp:randomBytes` and the
signature is the keyed digest of the payload. -/
def generateToken (sessionId : String) (now : Nat) (nonce : String) : CSRFToken :=
  let payload : String := ⟨sessionId.data ++ ':' :: natToDec now ++ ':' :: nonce.data⟩
  ⟨payload, hmacSHA256 csrfSecret payload⟩

/-- The first `:`-separated component of the payload — the session
identifier the token presents (`tokenSessionId` in the source). -/
def embeddedSessionId (t : CSRFToken) : List Char :=
  (splitOnChar ':' t.payload.data).headD []

/-- The second `:`-separated component of the payload parsed as a number —
the issue timestamp the token presents (`parseInt(timestamp)` in the
source; `none` covers both a missing component and `NaN`). -/
def embeddedTimestamp (t : CSRFToken) : Option Nat :=
  ((splitOnChar ':' t.payload.data)[1]?).bind parseIntJS

/-- Source `verifyToken(token, sessionId)` from csrf.js with the clock explicit:
reject a missing token, an empty payload or signature component, a session
mismatch, a signature mismatch, and finally require
`Date.now() - parseInt(timestamp) < maxAge` (false on `NaN`). -/
def verifyToken : Option CSRFToken → String → Nat → Bool
  | none, _, _ => false
  | some t, sessionId, now =>
    if t.payload.data = [] then false
    else if t.signature.data = [] then false
    else if (splitOnChar ':' t.payload.data).headD [] ≠ sessionId.data then false
    else if t.signature ≠ hmacSHA256 csrfSecret t.payload then false
    else
      match (splitOnChar ':' t.payload.data)[1]? with
      | none => false
      | some ts =>
        match parseIntJS ts with
        | none => false
        | some tstamp => decide ((now : Int) - (tstamp : Int) < (csrfMaxAge : Int))

/-! ### Requests and the middleware pipeline (server.js) -/

/-- HTTP methods relevant to the pipeline. -/
inductive Method where
  | GET | HEAD | OPTIONS | POST | PUT | PATCH | DELETE
deriving DecidableEq, Repr

/-- The request descriptor the pipeline consumes: method, `originalUrl`,
content type, the CSRF token presented in the `x-csrf-token` header, in
`body._csrf` or in `query._csrf` (already transport-decoded), and the
session identifier (`req.session.id || req.sessionID`; the session
middleware always establishes one). -/
structure Request where
  method : Method
  originalUrl : String
  contentType : Option String
  csrfHeader : Option CSRFToken
  bodyCsrf : Option CSRFToken
  queryCsrf : Option CSRFToken
  sessionId : String
deriving DecidableEq, Repr

/-- Security-event categories of the spec's event taxonomy, mapped onto
the source's log sites: the 429 handler logs either a security alert (for
a suspicious path) or a plain rate-limit line, `threatDetection` logs a
detected threat, and the CSRF middleware logs a verification failure. -/
inductive EventCategory where
  | rateLimit | threat | csrfFail | sanitizedField | auth
deriving DecidableEq, Repr

/-- JS `token || body._csrf || query._csrf`. -/
def presentedToken (req : Request) : Option CSRFToken :=
  (req.csrfHeader.orElse fun _ => req.bodyCsrf).orElse fun _ => req.queryCsrf

/-- The safe methods the CSRF middleware exempts. -/
def safeMethods : List Method := [.GET, .HEAD, .OPTIONS]

/-- The middleware returned by `CSRFProtection.verifyToken()` in csrf.js:
`none` means `next()` was called (the chain continues to the route
handler), `some (status, events)` an early terminal response.  Safe
methods and URLs containing `/health` are exempted; any verification
failure is a 403 with the csrf-fail event logged. -/
def verifyCSRFTokenMW (req : Request) (now : Nat) : Option (Nat × List EventCategory) :=
  if req.method ∈ safeMethods then none
  else if strContains req.originalUrl "/health" then none
  else if verifyToken (presentedToken req) req.sessionId now then none
  else some (403, [.csrfFail])

/-- The `threatDetection` middleware of security.js: a suspicious path is
answered with the generic 404 (deliberately not a 429) and a threat event;
otherwise `next()`.  Note: server.js never mounts this middleware. -/
def threatDetection (req : Request) : Option (Nat × List EventCategory) :=
  if isSuspiciousPath req.originalUrl then some (404, [.threat]) else none

/-- Source `validateContentType` acceptance: the header exists and `includes`
one of the two accepted media types. -/
def contentTypeOk : Option String → Bool
  | none => false
  | some ct =>
      strContains ct "application/json" ||
      strContains ct "application/x-www-form-urlencoded"

/-- Express `app.use(mountPath, mw)` path matching: the URL is the mount
path itself or continues it at a `/` boundary. -/
def mountMatch (mountPath url : String) : Bool :=
  url = mountPath || strStartsWith url (mountPath ++ "/")

/-- The mutable per-client pipeline state: one fixed-window record per
limiter class (general, auth, register) plus the slow-down counter.
`none` = no record yet (created lazily on first request). -/
structure ServerState where
  generalRate : Option RateState
  authRate : Option RateState
  registerRate : Option RateState
  speedHits : Option RateState
deriving DecidableEq, Repr

/-- Terminal outcome of the pipeline for one request: an early response
with a status code, or dispatch to the business-logic route handlers. -/
inductive PipeResult where
  | respond (status : Nat)
  | dispatched
deriving DecidableEq, Repr

/-- The pipeline's full effect on one request: outcome, updated state,
emitted security events, and the advisory delay the speed stage asked the
caller to apply. -/
structure PipeOut where
  result : PipeResult
  state : ServerState
  events : List EventCategory
  delay : Nat
deriving DecidableEq, Repr

/-- The event the shared `createRateLimit` 429 handler logs: a security
alert when the path is suspicious, a plain rate-limit line otherwise. -/
def rateRejectEvent (url : String) : EventCategory :=
  if isSuspiciousPath url then .threat else .rateLimit

/-- Pipeline tail after the auth limiter: `app.use([register, login,
logout], verifyCSRFToken)`, then the business routes (abstracted as
`dispatched`; this includes the `/api/*` 404 fallback). -/
def pipelineCsrf (req : Request) (st : ServerState) (now : Nat) (delay : Nat) : PipeOut :=
  if mountMatch "/api/register" req.originalUrl ||
     mountMatch "/api/login" req.originalUrl ||
     mountMatch "/api/logout" req.originalUrl then
    match verifyCSRFTokenMW req now with
    | some (code, evs) => ⟨.respond code, st, evs, delay⟩
    | none => ⟨.dispatched, st, [], delay⟩
  else ⟨.dispatched, st, [], delay⟩

/-- Mounts `app.use("/api/login", authLimiter)` and `app.use("/api/logout",
authLimiter)`: the strict 5-per-15-minutes class. -/
def pipelineAuth (req : Request) (st : ServerState) (now : Nat) (delay : Nat) : PipeOut :=
  if mountMatch "/api/login" req.originalUrl ||
     mountMatch "/api/logout" req.originalUrl then
    match rateAdmit 900000 5 st.authRate now with
    | (.reject _, a) => ⟨.respond 429, { st with authRate := some a },
        [rateRejectEvent req.originalUrl], delay⟩
    | (.allow, a) => pipelineCsrf req { st with authRate := some a } now delay
  else pipelineCsrf req st now delay

/-- Mount `app.use("/api/register", registerLimiter)`: 3 per hour. -/
def pipelineRegister (req : Request) (st : ServerState) (now : Nat) (delay : Nat) : PipeOut :=
  if mountMatch "/api/register" req.originalUrl then
    match rateAdmit 3600000 3 st.registerRate now with
    | (.reject _, r) => ⟨.respond 429, { st with registerRate := some r },
        [rateRejectEvent req.originalUrl], delay⟩
    | (.allow, r) => pipelineAuth req { st with registerRate := some r } now delay
  else pipelineAuth req st now delay

/-- The stages between the speed limiter and the per-route limiters:
`validateContentType` (400 on a bad content type for POST/PUT/PATCH),
then the two directly registered endpoints `GET /api/health` and
`GET /api/csrf-token` (both respond 200).  CORS, loggers, cookie and body
parsing, the session middleware, `addCSRFToken`, `sanitizeInput` and
`securityLogger` pass every request through and are omitted. -/
def pipelineRoutes (req : Request) (st : ServerState) (now : Nat) (delay : Nat) : PipeOut :=
  if (req.method = .POST ∨ req.method = .PUT ∨ req.method = .PATCH) ∧
     contentTypeOk req.contentType = false then
    ⟨.respond 400, st, [], delay⟩
  else if req.method = .GET ∧ req.originalUrl = "/api/health" then
    ⟨.respond 200, st, [], delay⟩
  else if req.method = .GET ∧ req.originalUrl = "/api/csrf-token" then
    ⟨.respond 200, st, [], delay⟩
  else
    pipelineRegister req st now delay

/-- Mount `app.use(speedLimiter)`: every request advances the slow-down counter
(the source passes no path exclusion to `slowDown`), the computed delay is
advisory, and the chain always continues. -/
def pipelineSpeed (req : Request) (st : ServerState) (now : Nat) : PipeOut :=
  let sp := speedAdvance st.speedHits now
  pipelineRoutes req { st with speedHits := some sp } now (slowDownDelay sp.count)

/-- The middleware pipeline of server.js in mount order: `helmetConfig`
(headers only), `generalLimiter` (100 per 15 minutes, with the static
asset skip list), `speedLimiter`, then the later stages.  The
`threatDetection` middleware is exported by security.js but never imported
or mounted in server.js, so it appears nowhere in this chain. -/
def pipeline (req : Request) (st : ServerState) (now : Nat) : PipeOut :=
  if generalSkip req.originalUrl then
    pipelineSpeed req st now
  else
    match rateAdmit 900000 100 st.generalRate now with
    | (.reject _, g) => ⟨.respond 429, { st with generalRate := some g },
        [rateRejectEvent req.originalUrl], 0⟩
    | (.allow, g) => pipelineSpeed req { st with generalRate := some g } now

/-- Run one limiter class over a list of request times, threading the
window record (a fresh client: initial record `none`). -/
def admitRun (windowMs maxReqs : Nat) : Option RateState → List Nat → List RateDecision
  | _, [] => []
  | st, t :: ts =>
    match rateAdmit windowMs maxReqs st t with
    | (d, r) => d :: admitRun windowMs maxReqs (some r) ts

/-! ### Concrete requests and states used by the closed theorems -/

/-- A probe of an admin path: `'/api/admin'` contains the signature
`'admin'`. -/
def adminReq : Request := ⟨.GET, "/api/admin", none, none, none, none, "s"⟩

/-- The documented health-check request. -/
def healthReq : Request := ⟨.GET, "/api/health", none, none, none, none, "s"⟩

/-- A static-asset request (matches the general limiter's skip list). -/
def assetReq : Request := ⟨.GET, "/assets/logo.png", none, none, none, none, "s"⟩

/-- A state-changing login request with no CSRF token presented. -/
def loginReq : Request :=
  ⟨.POST, "/api/login", some "application/json", none, none, none, "sess1"⟩

/-- A client with no records yet. -/
def freshState : ServerState := ⟨none, none, none, none⟩

/-- A client whose general-limiter window is exhausted (100 requests seen
in the current window). -/
def exhaustedState : ServerState := ⟨some ⟨0, 100⟩, none, none, none⟩

/-- A client with 4 requests already counted by the speed limiter in the
current window. -/
def speedState : ServerState := ⟨none, none, none, some ⟨0, 4⟩⟩

/-! ### Input sanitization (security.js, `sanitizeInput`)

The two sanitizer passes are the external `xss` and `DOMPurify` packages;
their algorithms are modelled from the spec (section 4.4: an allow-list
element filter that removes disallowed elements and disallowed attributes,
keeps the content of removed elements, and drops the bodies of
script-like elements), while both allow-lists and the forbidden-body sets
are taken from the source configuration (`xssOptions` and the
`DOMPurify.sanitize` options of `sanitizeInput`). -/

/-- Parsed markup of one string field: a forest of text runs and elements,
where an element carries its tag, attribute list and child forest, and
`rest` is the following sibling material. -/
inductive Forest where
  | nil : Forest
  | text (s : String) (rest : Forest) : Forest
  | elem (tag : String) (attrs : List (String × String)) (children : Forest)
      (rest : Forest) : Forest
deriving DecidableEq, Repr

/-- Concatenation of sibling forests. -/
def appendF : Forest → Forest → Forest
  | .nil, g => g
  | .text s r, g => .text s (appendF r g)
  | .elem t a c r, g => .elem t a c (appendF r g)

/-- Look a tag up in an allow-list of (tag, allowed attribute names). -/
def lookupTag (t : String) : List (String × List String) → Option (List String)
  | [] => none
  | (n, attrs) :: rest => if t = n then some attrs else lookupTag t rest

/-- Modelled from the spec: one allow-list sanitizer pass (section 4.4).
An element whose tag is in `stripBody` is dropped with its whole body
(`stripIgnoreTagBody` of `xss`, forbidden contents of DOMPurify); an
allow-listed element is kept with only its allowed attributes and a
sanitized body; any other element is dropped but its sanitized content is
kept in place (`stripIgnoreTag` of `xss`, `KEEP_CONTENT` of DOMPurify). -/
def sanitizePass (wl : List (String × List String)) (stripBody : List String) :
    Forest → Forest
  | .nil => .nil
  | .text s r => .text s (sanitizePass wl stripBody r)
  | .elem t a c r =>
    if t ∈ stripBody then sanitizePass wl stripBody r
    else
      match lookupTag t wl with
      | some allowed =>
          .elem t (a.filter fun p => decide (p.1 ∈ allowed)) (sanitizePass wl stripBody c)
            (sanitizePass wl stripBody r)
      | none => appendF (sanitizePass wl stripBody c) (sanitizePass wl stripBody r)

/-- The `whiteList` of `xssOptions` in security.js. -/
def xssWhiteList : List (String × List String) :=
  [("p", []), ("br", []), ("strong", []), ("em", []), ("u", []), ("i", []),
   ("b", []), ("span", ["class"]), ("div", ["class"])]

/-- The `stripIgnoreTagBody` list of `xssOptions`. -/
def xssStripBody : List String := ["script", "style", "iframe", "object", "embed"]

/-- The `ALLOWED_TAGS`/`ALLOWED_ATTR` options passed to
`DOMPurify.sanitize` in `sanitizeInput` (no attribute is allowed). -/
def domPurifyAllowed : List (String × List String) :=
  [("p", []), ("br", []), ("strong", []), ("em", []), ("u", []), ("i", []),
   ("b", [])]

/-- Representative of DOMPurify's default forbidden-contents set (script
and style bodies are removed even with `KEEP_CONTENT`). -/
def domPurifyStrip : List String := ["script", "style", "iframe"]

/-- The first pass of `sanitizeInput`: `xss(value, xssOptions)`. -/
def xssFilterHtml : Forest → Forest :=
  sanitizePass xssWhiteList xssStripBody

/-- The second pass: `DOMPurify.sanitize(xssFiltered, {...})`. -/
def domPurifySanitize : Forest → Forest :=
  sanitizePass domPurifyAllowed domPurifyStrip

/-- The composed two-pass sanitizer applied to each string body field. -/
def sanitizeField (f : Forest) : Forest :=
  domPurifySanitize (xssFilterHtml f)

/-- Whether every element of the forest is acceptable to the pass
`sanitizePass wl stripBody` unchanged: no tag from `stripBody`, every tag
allow-listed, every attribute allowed for its tag. -/
def cleanFor (wl : List (String × List String)) (stripBody : List String) :
    Forest → Bool
  | .nil => true
  | .text _ r => cleanFor wl stripBody r
  | .elem t a c r =>
    decide (t ∉ stripBody) &&
    (match lookupTag t wl with
     | some allowed => a.all (fun p => decide (p.1 ∈ allowed)) && cleanFor wl stripBody c
     | none => false) &&
    cleanFor wl stripBody r

/-! ### Lemmas: the sanitizer passes -/

theorem all_filter_self (p : α → Bool) (l : List α) : (l.filter p).all p = true := by
  induction l with
  | nil => rfl
  | cons x xs ih =>
    by_cases h : p x = true
    · simp [List.filter, h, ih]
    · simp only [List.filter, Bool.not_eq_true] at h ⊢
      rw [h]
      exact ih

theorem filter_eq_self_of_all (p : α → Bool) (l : List α) (h : l.all p = true) :
    l.filter p = l := by
  induction l with
  | nil => rfl
  | cons x xs ih =>
    simp only [List.all_cons, Bool.and_eq_true] at h
    simp [List.filter, h.1, ih h.2]

theorem cleanFor_appendF (wl : List (String × List String)) (sb : List String)
    (f g : Forest) :
    cleanFor wl sb (appendF f g) = (cleanFor wl sb f && cleanFor wl sb g) := by
  induction f with
  | nil => simp [appendF, cleanFor]
  | text s r ih => simp [appendF, cleanFor, ih]
  | elem t a c r ihc ihr =>
    simp [appendF, cleanFor, ihr, Bool.and_assoc]

theorem sanitizePass_clean (wl : List (String × List String)) (sb : List String)
    (f : Forest) : cleanFor wl sb (sanitizePass wl sb f) = true := by
  induction f with
  | nil => rfl
  | text s r ih => simpa [sanitizePass, cleanFor] using ih
  | elem t a c r ihc ihr =>
    by_cases hsb : t ∈ sb
    · simpa [sanitizePass, hsb] using ihr
    · rcases hl : lookupTag t wl with _ | allowed
      · simpa [sanitizePass, hsb, hl, cleanFor_appendF, ihc] using ihr
      · simp [sanitizePass, hsb, hl, cleanFor, ihc, ihr, all_filter_self]

theorem sanitizePass_id_of_clean (wl : List (String × List String)) (sb : List String)
    (f : Forest) (h : cleanFor wl sb f = true) : sanitizePass wl sb f = f := by
  induction f with
  | nil => rfl
  | text s r ih =>
    simp only [cleanFor] at h
    simp [sanitizePass, ih h]
  | elem t a c r ihc ihr =>
    simp only [cleanFor, Bool.and_eq_true, decide_eq_true_eq] at h
    obtain ⟨⟨hsb, hmid⟩, hr⟩ := h
    rcases hl : lookupTag t wl with _ | allowed
    · rw [hl] at hmid; simp at hmid
    · rw [hl] at hmid
      simp only [Bool.and_eq_true] at hmid
      simp [sanitizePass, hsb, hl, ihc hmid.2, ihr hr,
        filter_eq_self_of_all _ _ hmid.1]

theorem dp_lookup_cases (t : String) (al : List String)
    (h : lookupTag t domPurifyAllowed = some al) :
    al = [] ∧ lookupTag t xssWhiteList = some [] ∧ t ∉ xssStripBody := by
  simp only [domPurifyAllowed, lookupTag] at h
  split_ifs at h with h1 h2 h3 h4 h5 h6 h7 <;> cases h <;> subst_vars <;>
    exact ⟨rfl, by decide, by decide⟩

theorem xss_id_of_dp_clean (f : Forest)
    (h : cleanFor domPurifyAllowed domPurifyStrip f = true) : xssFilterHtml f = f := by
  induction f with
  | nil => rfl
  | text s r ih =>
    simp only [cleanFor] at h
    simp only [xssFilterHtml, sanitizePass] at ih ⊢
    rw [ih h]
  | elem t a c r ihc ihr =>
    simp only [cleanFor, Bool.and_eq_true, decide_eq_true_eq] at h
    obtain ⟨⟨_, hmid⟩, hr⟩ := h
    rcases hl : lookupTag t domPurifyAllowed with _ | allowed
    · rw [hl] at hmid; simp at hmid
    · rw [hl] at hmid
      simp only [Bool.and_eq_true] at hmid
      obtain ⟨hal, hxl, hxsb⟩ := dp_lookup_cases t allowed hl
      subst hal
      have ha : a = [] := by
        rcases a with _ | ⟨p, a⟩
        · rfl
        · simp at hmid
      subst ha
      simp only [xssFilterHtml, sanitizePass] at ihc ihr ⊢
      simp [hxsb, hxl, ihc hmid.2, ihr hr]

/-- Claim C7 (idempotence of the composed sanitizer). -/
theorem sanitize_idempotent (f : Forest) :
    sanitizeField (sanitizeField f) = sanitizeField f := by
  have h2 : cleanFor domPurifyAllowed domPurifyStrip (sanitizeField f) = true :=
    sanitizePass_clean domPurifyAllowed domPurifyStrip (xssFilterHtml f)
  calc sanitizeField (sanitizeField f)
      = domPurifySanitize (xssFilterHtml (sanitizeField f)) := rfl
    _ = domPurifySanitize (sanitizeField f) := by rw [xss_id_of_dp_clean _ h2]
    _ = sanitizeField f :=
        sanitizePass_id_of_clean domPurifyAllowed domPurifyStrip _ h2

/-! ### Lemmas: decimal rendering and parsing -/

theorem decDigit_isDigit (d : Nat) (h : d < 10) : (decDigit d).isDigit = true := by
  interval_cases d <;> decide

theorem decDigit_toNat (d : Nat) (h : d < 10) : (decDigit d).toNat = 48 + d := by
  interval_cases d <;> decide

theorem natToDecAux_spec (fuel : Nat) : ∀ n, n < fuel →
    (∀ c ∈ natToDecAux fuel n, c.isDigit = true) ∧
    natToDecAux fuel n ≠ [] ∧
    ∀ acc, List.foldl (fun a c => a * 10 + (c.toNat - 48)) acc (natToDecAux fuel n)
      = acc * 10 ^ (natToDecAux fuel n).length + n := by
  induction fuel with
  | zero => intro n hn; omega
  | succ f ih =>
    intro n hn
    by_cases h10 : n < 10
    · refine ⟨?_, ?_, ?_⟩
      · intro c hc
        simp only [natToDecAux, if_pos h10, List.mem_singleton] at hc
        exact hc ▸ decDigit_isDigit n h10
      · simp [natToDecAux, if_pos h10]
      · intro acc
        simp [natToDecAux, if_pos h10, List.foldl, decDigit_toNat n h10]
    · have hdiv : n / 10 < f := by
        have h1 : n / 10 < n := Nat.div_lt_self (by omega) (by omega)
        omega
      obtain ⟨ihd, ihne, ihfold⟩ := ih (n / 10) hdiv
      have hmod : n % 10 < 10 := Nat.mod_lt _ (by omega)
      refine ⟨?_, ?_, ?_⟩
      · intro c hc
        simp only [natToDecAux, if_neg h10, List.mem_append, List.mem_singleton] at hc
        rcases hc with hc | hc
        · exact ihd c hc
        · exact hc ▸ decDigit_isDigit _ hmod
      · simp [natToDecAux, if_neg h10]
      · intro acc
        have hdm : 10 * (n / 10) + n % 10 = n := Nat.div_add_mod n 10
        simp only [natToDecAux, if_neg h10, List.foldl_append, List.foldl,
          ihfold, decDigit_toNat _ hmod, List.length_append, List.length_singleton]
        calc (acc * 10 ^ (natToDecAux f (n / 10)).length + n / 10) * 10
                + (48 + n % 10 - 48)
            = acc * (10 ^ (natToDecAux f (n / 10)).length * 10)
                + (10 * (n / 10) + n % 10) := by ring_nf; omega
          _ = acc * 10 ^ ((natToDecAux f (n / 10)).length + 1) + n := by
              rw [pow_succ, hdm]

theorem natToDec_spec (n : Nat) :
    (∀ c ∈ natToDec n, c.isDigit = true) ∧ natToDec n ≠ [] ∧
    parseDecDigits (natToDec n) = n := by
  obtain ⟨h1, h2, h3⟩ := natToDecAux_spec (n + 1) n (by omega)
  exact ⟨h1, h2, by simpa [parseDecDigits] using h3 0⟩

theorem natToDec_no_colon (n : Nat) : ':' ∉ natToDec n := by
  intro h
  exact absurd ((natToDec_spec n).1 ':' h) (by decide)

theorem takeWhile_all (p : α → Bool) (l : List α) (h : ∀ c ∈ l, p c = true) :
    l.takeWhile p = l := by
  induction l with
  | nil => rfl
  | cons x xs ih =>
    rw [List.takeWhile_cons, h x (List.mem_cons_self x xs)]
    exact congrArg (x :: ·) (ih fun c hc => h c (List.mem_cons_of_mem _ hc))

theorem parseIntJS_natToDec (n : Nat) : parseIntJS (natToDec n) = some n := by
  obtain ⟨hd, hne, hp⟩ := natToDec_spec n
  unfold parseIntJS
  rw [takeWhile_all _ _ hd]
  rcases hnn : natToDec n with _ | ⟨a, l⟩
  · exact absurd hnn hne
  · rw [hnn] at hp
    simpa using hp

/-! ### Lemmas: payload splitting -/

theorem splitOnChar_ne_nil (c : Char) (l : List Char) : splitOnChar c l ≠ [] := by
  cases l with
  | nil => simp [splitOnChar]
  | cons x xs =>
    rcases h : splitOnChar c xs with _ | ⟨w, ws⟩
    · simp [splitOnChar, h]
    · by_cases hx : x = c <;> simp [splitOnChar, h, hx]

theorem splitOnChar_append (c : Char) (xs ys : List Char) (h : c ∉ xs) :
    splitOnChar c (xs ++ c :: ys) = xs :: splitOnChar c ys := by
  induction xs with
  | nil =>
    rcases hs : splitOnChar c ys with _ | ⟨w, ws⟩
    · exact absurd hs (splitOnChar_ne_nil c ys)
    · simp [splitOnChar, hs]
  | cons x xs ih =>
    have hx : ¬ x = c := fun hxc => h (by simp [hxc])
    have hxs : c ∉ xs := fun hc => h (List.mem_cons_of_mem _ hc)
    show splitOnChar c (x :: (xs ++ c :: ys)) = (x :: xs) :: splitOnChar c ys
    rw [splitOnChar, ih hxs]
    simp [hx]

theorem str_data_inj {a b : String} (h : a.data = b.data) : a = b :=
  congrArg String.mk h

/-! ### Lemmas: the CSRF token service -/

theorem generateToken_payload (sid : String) (t : Nat) (nonce : String) :
    (generateToken sid t nonce).payload.data
      = sid.data ++ ':' :: (natToDec t ++ ':' :: nonce.data) := by
  simp [generateToken]

theorem generateToken_signature (sid : String) (t : Nat) (nonce : String) :
    (generateToken sid t nonce).signature
      = hmacSHA256 csrfSecret (generateToken sid t nonce).payload := rfl

theorem generateToken_parts (sid nonce : String) (t : Nat) (hsid : ':' ∉ sid.data) :
    splitOnChar ':' (generateToken sid t nonce).payload.data
      = sid.data :: natToDec t :: splitOnChar ':' nonce.data := by
  rw [generateToken_payload, splitOnChar_append _ _ _ hsid,
    splitOnChar_append _ _ _ (natToDec_no_colon t)]

theorem verifyToken_true_iff (t : CSRFToken) (sid : String) (now : Nat) :
    verifyToken (some t) sid now = true ↔
      (embeddedSessionId t = sid.data ∧
       t.signature = hmacSHA256 csrfSecret t.payload ∧
       ∃ T, embeddedTimestamp t = some T ∧
         (now : Int) - (T : Int) < (csrfMaxAge : Int)) := by
  simp only [verifyToken, embeddedSessionId, embeddedTimestamp]
  split_ifs with hp hs hsid hsig
  · simp only [Bool.false_eq_true, false_iff]
    rintro ⟨-, -, T, hT, -⟩
    rw [hp] at hT
    simp [splitOnChar] at hT
  · simp only [Bool.false_eq_true, false_iff]
    rintro ⟨-, hsg, -⟩
    have hd := congrArg String.data hsg
    rw [hs] at hd
    simp [hmacSHA256] at hd
  · simp only [Bool.false_eq_true, false_iff]
    rintro ⟨h1, -⟩
    exact hsid h1
  · simp only [Bool.false_eq_true, false_iff]
    rintro ⟨-, h2, -⟩
    exact hsig h2
  · rw [not_ne_iff] at hsid hsig
    simp only [hsid, hsig, true_and]
    rcases h1 : (splitOnChar ':' t.payload.data)[1]? with _ | ts
    · simp
    · rcases h2 : parseIntJS ts with _ | T0
      · simp [h2]
      · simp [h2, decide_eq_true_iff]

/-- Claim C3: `verifyToken(token, sessionId)` is true exactly when the
embedded session identifier equals `sessionId`, the recomputed keyed
digest of the payload equals the embedded signature, and the elapsed time
since the embedded issue timestamp is strictly below the 24-hour maximum
age (a missing or non-numeric timestamp counts as failing that check). -/
theorem verifyToken_iff_claim (t : CSRFToken) (sid : String) (now : Nat) :
    verifyToken (some t) sid now = true ↔
      (embeddedSessionId t = sid.data ∧
       t.signature = hmacSHA256 csrfSecret t.payload ∧
       ∃ T, embeddedTimestamp t = some T ∧
         (now : Int) - (T : Int) < (csrfMaxAge : Int)) :=
  verifyToken_true_iff t sid now

/-- Claim C4, counterexample: the claim quantifies over every session
identifier, but for a session identifier containing `:` the issued token
does not verify even immediately, because `verifyToken` splits the payload
at every `:` and recovers only the text before the first one. -/
theorem generate_verify_colon_cex :
    verifyToken (some (generateToken "a:b" 0 "ffff")) "a:b" 0 = false := by decide

/-- Claim C4 as amended: for every session identifier that contains no
`:` (true of the session ids the session middleware issues), a generated
token verifies at issuance time and at any later instant strictly less
than the maximum age after issuance, fails for any other presented session
identifier, and fails for any token whose signature was altered. -/
theorem generate_verify_roundtrip_amended (sid sid' nonce sig' : String) (t tv : Nat)
    (hsid : ':' ∉ sid.data) (hle : t ≤ tv) (hage : tv - t < csrfMaxAge)
    (hne : sid' ≠ sid) (hsig : sig' ≠ (generateToken sid t nonce).signature) :
    verifyToken (some (generateToken sid t nonce)) sid tv = true ∧
    verifyToken (some (generateToken sid t nonce)) sid' tv = false ∧
    verifyToken (some ⟨(generateToken sid t nonce).payload, sig'⟩) sid tv = false := by
  have hparts := generateToken_parts sid nonce t hsid
  refine ⟨?_, ?_, ?_⟩
  · rw [verifyToken_true_iff]
    refine ⟨?_, rfl, t, ?_, ?_⟩
    · rw [embeddedSessionId, hparts]
      rfl
    · rw [embeddedTimestamp, hparts]
      simpa using parseIntJS_natToDec t
    · simp only [csrfMaxAge] at hage ⊢
      omega
  · cases h : verifyToken (some (generateToken sid t nonce)) sid' tv with
    | false => rfl
    | true =>
      obtain ⟨h1, -, -⟩ := (verifyToken_true_iff _ _ _).mp h
      rw [embeddedSessionId, hparts] at h1
      exact absurd (str_data_inj (h1 : sid.data = sid'.data)).symm hne
  · cases h : verifyToken (some ⟨(generateToken sid t nonce).payload, sig'⟩) sid tv with
    | false => rfl
    | true =>
      obtain ⟨-, h2, -⟩ := (verifyToken_true_iff _ _ _).mp h
      exact absurd h2 hsig

/-- Witness for the amended C4 at a concrete session id, nonce, altered
signature and clock. -/
theorem generate_verify_roundtrip_amended_witness :
    verifyToken (some (generateToken "abc" 0 "ffff")) "abc" 0 = true ∧
    verifyToken (some (generateToken "abc" 0 "ffff")) "xyz" 0 = false ∧
    verifyToken (some ⟨(generateToken "abc" 0 "ffff").payload, "bad"⟩) "abc" 0 = false :=
  generate_verify_roundtrip_amended "abc" "xyz" "ffff" "bad" 0 0 (by decide)
    (by decide) (by decide) (by decide) (by decide)

/-! ### Lemmas: the middleware pipeline -/

theorem rateAdmit_fresh (w m now : Nat) (hm : 1 ≤ m) :
    rateAdmit w m none now = (.allow, ⟨now, 1⟩) := by
  have hr : rateWindowRefresh w none now = ⟨now, 0⟩ := rfl
  simp only [rateAdmit, hr]
  rw [if_neg (by omega)]

theorem rateAdmit_in_window (w m ws cnt now : Nat) (hw : now - ws < w)
    (hm : cnt + 1 ≤ m) :
    rateAdmit w m (some ⟨ws, cnt⟩) now = (.allow, ⟨ws, cnt + 1⟩) := by
  have hr : rateWindowRefresh w (some ⟨ws, cnt⟩) now = ⟨ws, cnt⟩ := by
    simp only [rateWindowRefresh]
    rw [if_neg (by omega)]
  simp only [rateAdmit, hr]
  rw [if_neg (by omega)]

theorem rateAdmit_over (w m ws cnt now : Nat) (hw : now - ws < w)
    (hm : m < cnt + 1) :
    rateAdmit w m (some ⟨ws, cnt⟩) now = (.reject (ws + w - now), ⟨ws, cnt + 1⟩) := by
  have hr : rateWindowRefresh w (some ⟨ws, cnt⟩) now = ⟨ws, cnt⟩ := by
    simp only [rateWindowRefresh]
    rw [if_neg (by omega)]
  simp only [rateAdmit, hr]
  rw [if_pos (by omega)]

theorem pipelineCsrf_invariants (req : Request) (st : ServerState) (now d : Nat) :
    (pipelineCsrf req st now d).state.generalRate = st.generalRate ∧
    (pipelineCsrf req st now d).delay = d := by
  unfold pipelineCsrf
  split_ifs with h
  · rcases hv : verifyCSRFTokenMW req now with _ | ⟨code, evs⟩ <;> simp [hv]
  · simp

theorem pipelineAuth_invariants (req : Request) (st : ServerState) (now d : Nat) :
    (pipelineAuth req st now d).state.generalRate = st.generalRate ∧
    (pipelineAuth req st now d).delay = d := by
  unfold pipelineAuth
  split_ifs with h
  · rcases ha : rateAdmit 900000 5 st.authRate now with ⟨da, aa⟩
    cases da
    · simpa using pipelineCsrf_invariants req { st with authRate := some aa } now d
    · simp
  · exact pipelineCsrf_invariants req st now d

theorem pipelineRegister_invariants (req : Request) (st : ServerState) (now d : Nat) :
    (pipelineRegister req st now d).state.generalRate = st.generalRate ∧
    (pipelineRegister req st now d).delay = d := by
  unfold pipelineRegister
  split_ifs with h
  · rcases hr : rateAdmit 3600000 3 st.registerRate now with ⟨dr, rr⟩
    cases dr
    · simpa using pipelineAuth_invariants req { st with registerRate := some rr } now d
    · simp
  · exact pipelineAuth_invariants req st now d

theorem pipelineRoutes_invariants (req : Request) (st : ServerState) (now d : Nat) :
    (pipelineRoutes req st now d).state.generalRate = st.generalRate ∧
    (pipelineRoutes req st now d).delay = d := by
  unfold pipelineRoutes
  split_ifs <;> first
    | exact ⟨rfl, rfl⟩
    | exact pipelineRegister_invariants req st now d

theorem pipelineSpeed_spec (req : Request) (st : ServerState) (now : Nat) :
    (pipelineSpeed req st now).state.generalRate = st.generalRate ∧
    (pipelineSpeed req st now).delay
      = slowDownDelay ((speedAdvance st.speedHits now).count) := by
  unfold pipelineSpeed
  have h := pipelineRoutes_invariants req
    { st with speedHits := some (speedAdvance st.speedHits now) } now
    (slowDownDelay (speedAdvance st.speedHits now).count)
  exact ⟨by simpa using h.1, h.2⟩

theorem pipelineCsrf_of_mw (req : Request) (st : ServerState) (now d : Nat)
    (hmount : (mountMatch "/api/register" req.originalUrl ||
               mountMatch "/api/login" req.originalUrl ||
               mountMatch "/api/logout" req.originalUrl) = true)
    (hmw : verifyCSRFTokenMW req now = some (403, [.csrfFail])) :
    pipelineCsrf req st now d = ⟨.respond 403, st, [.csrfFail], d⟩ := by
  unfold pipelineCsrf
  rw [if_pos hmount, hmw]

theorem pipelineAuth_csrf (req : Request) (st : ServerState) (now d : Nat)
    (hauth : (mountMatch "/api/login" req.originalUrl ||
              mountMatch "/api/logout" req.originalUrl) = true →
      (rateAdmit 900000 5 st.authRate now).1 = RateDecision.allow)
    (hmount : (mountMatch "/api/register" req.originalUrl ||
               mountMatch "/api/login" req.originalUrl ||
               mountMatch "/api/logout" req.originalUrl) = true)
    (hmw : verifyCSRFTokenMW req now = some (403, [.csrfFail])) :
    (pipelineAuth req st now d).result = PipeResult.respond 403 ∧
    (pipelineAuth req st now d).events = [EventCategory.csrfFail] := by
  unfold pipelineAuth
  split_ifs with h
  · rcases ha : rateAdmit 900000 5 st.authRate now with ⟨da, aa⟩
    have hda := hauth h
    rw [ha] at hda
    cases da
    · simp [pipelineCsrf_of_mw _ _ _ _ hmount hmw]
    · simp at hda
  · simp [pipelineCsrf_of_mw _ _ _ _ hmount hmw]

theorem pipelineRegister_csrf (req : Request) (st : ServerState) (now d : Nat)
    (hreg : mountMatch "/api/register" req.originalUrl = true →
      (rateAdmit 3600000 3 st.registerRate now).1 = RateDecision.allow)
    (hauth : (mountMatch "/api/login" req.originalUrl ||
              mountMatch "/api/logout" req.originalUrl) = true →
      (rateAdmit 900000 5 st.authRate now).1 = RateDecision.allow)
    (hmount : (mountMatch "/api/register" req.originalUrl ||
               mountMatch "/api/login" req.originalUrl ||
               mountMatch "/api/logout" req.originalUrl) = true)
    (hmw : verifyCSRFTokenMW req now = some (403, [.csrfFail])) :
    (pipelineRegister req st now d).result = PipeResult.respond 403 ∧
    (pipelineRegister req st now d).events = [EventCategory.csrfFail] := by
  unfold pipelineRegister
  split_ifs with h
  · rcases hrr : rateAdmit 3600000 3 st.registerRate now with ⟨dr, rr⟩
    have hdr := hreg h
    rw [hrr] at hdr
    cases dr
    · exact pipelineAuth_csrf req _ now d hauth hmount hmw
    · simp at hdr
  · exact pipelineAuth_csrf req st now d hauth hmount hmw

/-- Claim C1: a state-changing request (method outside GET/HEAD/OPTIONS,
URL not containing `/health`) that is routed through the CSRF verification
middleware and whose presented token fails verification is answered 403 by
the pipeline, never reaches the route handlers, and the failure is logged
with the csrf-fail category.  The rate-limit hypotheses state that the
request is not already rejected by an earlier stage. -/
theorem csrf_fail_hard_reject (req : Request) (st : ServerState) (now : Nat)
    (hm : req.method ∉ safeMethods)
    (hh : strContains req.originalUrl "/health" = false)
    (hv : verifyToken (presentedToken req) req.sessionId now = false)
    (hmount : (mountMatch "/api/register" req.originalUrl ||
               mountMatch "/api/login" req.originalUrl ||
               mountMatch "/api/logout" req.originalUrl) = true)
    (hskip : generalSkip req.originalUrl = false)
    (hga : (rateAdmit 900000 100 st.generalRate now).1 = RateDecision.allow)
    (hct : contentTypeOk req.contentType = true)
    (hreg : mountMatch "/api/register" req.originalUrl = true →
      (rateAdmit 3600000 3 st.registerRate now).1 = RateDecision.allow)
    (hauth : (mountMatch "/api/login" req.originalUrl ||
              mountMatch "/api/logout" req.originalUrl) = true →
      (rateAdmit 900000 5 st.authRate now).1 = RateDecision.allow) :
    (pipeline req st now).result = PipeResult.respond 403 ∧
    (pipeline req st now).events = [EventCategory.csrfFail] ∧
    (pipeline req st now).result ≠ PipeResult.dispatched := by
  have hmw : verifyCSRFTokenMW req now = some (403, [.csrfFail]) := by
    unfold verifyCSRFTokenMW
    rw [if_neg hm, if_neg (by simp [hh]), if_neg (by simp [hv])]
  have hget : req.method ≠ .GET := fun hg => hm (by simp [safeMethods, hg])
  have main : ∀ d : Nat,
      (pipelineRoutes req { st with
          generalRate := some (rateAdmit 900000 100 st.generalRate now).2,
          speedHits := some (speedAdvance st.speedHits now) } now d).result
        = PipeResult.respond 403 ∧
      (pipelineRoutes req { st with
          generalRate := some (rateAdmit 900000 100 st.generalRate now).2,
          speedHits := some (speedAdvance st.speedHits now) } now d).events
        = [EventCategory.csrfFail] := by
    intro d
    unfold pipelineRoutes
    rw [if_neg (by simp [hct]), if_neg (by simp [hget]), if_neg (by simp [hget])]
    exact pipelineRegister_csrf req _ now d hreg hauth hmount hmw
  have hra2 : rateAdmit 900000 100 st.generalRate now
      = (.allow, (rateAdmit 900000 100 st.generalRate now).2) := by
    rcases h : rateAdmit 900000 100 st.generalRate now with ⟨dg, g⟩
    rw [h] at hga
    cases dg
    · rfl
    · simp at hga
  unfold pipeline
  rw [if_neg (by simp [hskip]), hra2]
  simp only []
  unfold pipelineSpeed
  refine ⟨(main _).1, (main _).2, ?_⟩
  rw [(main _).1]
  simp

/-- Witness for C1: a POST to the login route with no token at all, from a
fresh client. -/
theorem csrf_fail_hard_reject_witness :
    (pipeline loginReq freshState 0).result = PipeResult.respond 403 ∧
    (pipeline loginReq freshState 0).events = [EventCategory.csrfFail] ∧
    (pipeline loginReq freshState 0).result ≠ PipeResult.dispatched :=
  csrf_fail_hard_reject loginReq freshState 0 (by decide) (by decide) (by decide)
    (by decide) (by decide) (by decide) (by decide)
    (fun h => absurd h (by decide)) (fun _ => by decide)

/-- Claim C2 (evaluation at the failing inputs): `threatDetection` is never
mounted in server.js, so a request whose path carries a threat signature is
not rejected with the generic 404.  `'/api/admin'` is suspicious yet is
answered 429 by the general rate limiter once the window is exhausted, and
`'/api/health'` is suspicious yet is answered 200 by the health route. -/
theorem threat_reject_not_enforced :
    isSuspiciousPath "/api/admin" = true ∧
    (pipeline adminReq exhaustedState 0).result = PipeResult.respond 429 ∧
    isSuspiciousPath "/api/health" = true ∧
    (pipeline healthReq freshState 0).result = PipeResult.respond 200 := by decide

/-- Claim C5, counterexample: a suspicious-path request does reach the
Rate/Speed Controller stage — the general rate counter is read and
incremented for it, and with an exhausted window it is even answered 429
by that stage, while no threat classification happens beforehand. -/
theorem suspicious_reaches_rate_cex :
    isSuspiciousPath "/api/admin" = true ∧
    (pipeline adminReq freshState 0).state.generalRate = some ⟨0, 1⟩ ∧
    (pipeline adminReq exhaustedState 0).result = PipeResult.respond 429 := by decide

/-- Claim C5 as amended: server.js never mounts `threatDetection`, so for
every request not excluded by the static-asset skip list the general rate
limiter reads and increments the client's counter first, regardless of the
path's threat classification; the classification is consulted only inside
the rate-limit rejection handler, to pick the log category of the 429. -/
theorem rate_before_threat_amended (req : Request) (st : ServerState) (now : Nat)
    (h : generalSkip req.originalUrl = false) :
    (pipeline req st now).state.generalRate
        = some (rateAdmit 900000 100 st.generalRate now).2 ∧
    (∀ r, (rateAdmit 900000 100 st.generalRate now).1 = RateDecision.reject r →
      (pipeline req st now).result = PipeResult.respond 429 ∧
      (pipeline req st now).events
        = [if isSuspiciousPath req.originalUrl then EventCategory.threat
           else EventCategory.rateLimit]) := by
  unfold pipeline
  rw [if_neg (by simp [h])]
  rcases hra : rateAdmit 900000 100 st.generalRate now with ⟨dg, g⟩
  cases dg with
  | allow =>
    refine ⟨?_, ?_⟩
    · simpa using (pipelineSpeed_spec req { st with generalRate := some g } now).1
    · intro r hr
      simp at hr
  | reject r0 =>
    refine ⟨rfl, ?_⟩
    intro r hr
    exact ⟨rfl, by simp [rateRejectEvent]⟩

/-- Witness for the amended C5 at the suspicious admin path with an
exhausted general window. -/
theorem rate_before_threat_amended_witness :
    (pipeline adminReq exhaustedState 0).state.generalRate
        = some (rateAdmit 900000 100 exhaustedState.generalRate 0).2 ∧
    (∀ r, (rateAdmit 900000 100 exhaustedState.generalRate 0).1
        = RateDecision.reject r →
      (pipeline adminReq exhaustedState 0).result = PipeResult.respond 429 ∧
      (pipeline adminReq exhaustedState 0).events
        = [if isSuspiciousPath adminReq.originalUrl then EventCategory.threat
           else EventCategory.rateLimit]) :=
  rate_before_threat_amended adminReq exhaustedState 0 (by decide)

/-- Claim C6: under the auth limiter class (maximum 5 per 15-minute
window), six requests of one client inside a single window are admitted
five times and rejected the sixth time, with a positive retry-after (the
remainder of the window); the pipeline answers that sixth request 429. -/
theorem auth_sixth_request_rejected (t1 t2 t3 t4 t5 t6 : Nat)
    (h12 : t1 ≤ t2) (h23 : t2 ≤ t3) (h34 : t3 ≤ t4) (h45 : t4 ≤ t5)
    (h56 : t5 ≤ t6) (hw : t6 < t1 + 900000) :
    admitRun 900000 5 none [t1, t2, t3, t4, t5, t6]
      = [.allow, .allow, .allow, .allow, .allow, .reject (t1 + 900000 - t6)] ∧
    0 < t1 + 900000 - t6 ∧
    (pipeline loginReq ⟨none, some ⟨t1, 5⟩, none, none⟩ t6).result
      = PipeResult.respond 429 := by
  have e1 := rateAdmit_fresh 900000 5 t1 (by omega)
  have e2 := rateAdmit_in_window 900000 5 t1 1 t2 (by omega) (by omega)
  have e3 := rateAdmit_in_window 900000 5 t1 2 t3 (by omega) (by omega)
  have e4 := rateAdmit_in_window 900000 5 t1 3 t4 (by omega) (by omega)
  have e5 := rateAdmit_in_window 900000 5 t1 4 t5 (by omega) (by omega)
  have e6 := rateAdmit_over 900000 5 t1 5 t6 (by omega) (by omega)
  refine ⟨?_, by omega, ?_⟩
  · simp [admitRun, e1, e2, e3, e4, e5, e6]
  · unfold pipeline
    rw [if_neg (by decide), rateAdmit_fresh 900000 100 t6 (by omega)]
    simp only []
    unfold pipelineSpeed pipelineRoutes
    rw [if_neg (by decide), if_neg (by decide), if_neg (by decide)]
    unfold pipelineRegister
    rw [if_neg (by decide)]
    unfold pipelineAuth
    rw [if_pos (by decide)]
    simp only [e6]

/-- Witness for C6 at request times 0..5 of one window. -/
theorem auth_sixth_request_rejected_witness :
    admitRun 900000 5 none [0, 1, 2, 3, 4, 5]
      = [.allow, .allow, .allow, .allow, .allow, .reject (0 + 900000 - 5)] ∧
    0 < 0 + 900000 - 5 ∧
    (pipeline loginReq ⟨none, some ⟨0, 5⟩, none, none⟩ 5).result
      = PipeResult.respond 429 :=
  auth_sixth_request_rejected 0 1 2 3 4 5 (by omega) (by omega) (by omega)
    (by omega) (by omega) (by omega)

/-- Claim C8: the delay the speed controller computes for the `seen`-th
request of a window is exactly
min(cap, increment × max(0, seen − free-quota)) with free-quota 2,
increment 500 ms and cap 20000 ms (truncated subtraction on naturals is
the max-with-0). -/
theorem speed_delay_formula (seen : Nat) :
    slowDownDelay seen = min 20000 (500 * (seen - 2)) := by
  unfold slowDownDelay slowDownDelayAfter slowDownDelayMsPer slowDownMaxDelayMs
  split_ifs with h
  · rw [Nat.min_comm, Nat.mul_comm]
  · have h2 : seen - 2 = 0 := by omega
    rw [h2]
    simp

/-- Claim C9, counterexample: the static-asset exclusion list does not
silence the speed controller.  `'/assets/logo.png'` matches the exclusion
list, yet the speed stage still computes a non-zero delay for it (1500 ms
when 4 requests were already seen in the window). -/
theorem speed_on_asset_path_cex :
    generalSkip "/assets/logo.png" = true ∧
    (pipeline assetReq speedState 0).delay = 1500 := by decide

/-- Claim C9 as amended: the suffix/prefix exclusion list belongs to the
general rate limiter's skip option, not to the speed controller; on every
request the skip list excludes, the rate counter is left untouched while
the speed controller still advances its window counter and computes its
advisory delay from it. -/
theorem speed_delay_all_paths_amended (req : Request) (st : ServerState) (now : Nat)
    (h : generalSkip req.originalUrl = true) :
    (pipeline req st now).state.generalRate = st.generalRate ∧
    (pipeline req st now).delay
      = slowDownDelay ((rateWindowRefresh 900000 st.speedHits now).count + 1) := by
  unfold pipeline
  rw [if_pos h]
  have hs := pipelineSpeed_spec req st now
  exact ⟨hs.1, by simpa [speedAdvance] using hs.2⟩

/-- Witness for the amended C9 at the asset path with 4 requests already
in the speed window. -/
theorem speed_delay_all_paths_amended_witness :
    (pipeline assetReq speedState 0).state.generalRate = speedState.generalRate ∧
    (pipeline assetReq speedState 0).delay
      = slowDownDelay ((rateWindowRefresh 900000 speedState.speedHits 0).count + 1) :=
  speed_delay_all_paths_amended assetReq speedState 0 (by decide)

/-- Claim C10: the signature set contains `'health'` (and
`'package.json'`), so the application's own documented health-check path
is classified suspicious, and the `threatDetection` middleware — had it
been applied to every inbound request as the spec prescribes — would
reject `GET /api/health` with the generic 404. -/
theorem health_flagged_suspicious :
    "health" ∈ suspiciousPaths ∧ "package.json" ∈ suspiciousPaths ∧
    isSuspiciousPath "/api/health" = true ∧
    threatDetection healthReq = some (404, [EventCategory.threat]) := by decide
